import Mathlib

/-!
Verification of the voice-recognition core of the
Smart-Voice-Recognition-System repository.

The embedding covers `backend/services/voice_service.py`
(`calculate_similarity_cosine`, `calculate_similarity_euclidean`,
`register_voice`, `identify_speaker`, `verify_speaker`,
`calculate_optimal_threshold`) and `backend/utils/audio_processor.py`
(`validate_audio`).

Modelling choices:
* Python floats are modelled exactly: score arithmetic is over `ℚ`;
  the two places where the code takes a square root (the vector norms
  inside the cosine/Euclidean similarity, and the standard deviation
  inside `calculate_optimal_threshold`) live in `ℝ` via `Real.sqrt`.
* The decision engines (`identify_speaker`, `verify_speaker`,
  `register_voice`, `calculate_optimal_threshold`) never look inside an
  embedding vector: they only consume pairwise scores.  They are
  therefore embedded parametrically over an abstract similarity
  function `sim : α → α → ℚ`, mirroring the `method=` dispatch of
  `calculate_similarity` in the source.
* `round x 2` in Python (banker's rounding to two decimal places) is
  modelled by `round2` below, using round-half-to-even.
* Log output (`logger.…`) has no observable effect and is dropped; the
  "LOW CONFIDENCE MATCH" / "SPEAKER IDENTIFIED" branches of
  `identify_speaker` return identical dictionaries and differ only in
  logging, so they are merged into one branch with a comment.
-/

/-- Arithmetic mean of a list of rationals; `np.mean` on a non-empty
list.  (`np.mean([])` is NaN in the source; every claim below that can
reach this case carries a non-emptiness hypothesis.) -/
def mean (l : List ℚ) : ℚ := l.sum / l.length

/-- `np.max` on a non-empty list (defaults to `0` on `[]`, a case the
source would raise on; guarded by hypotheses where relevant). -/
def listMax : List ℚ → ℚ
  | [] => 0
  | x :: xs => xs.foldl max x

/-- `np.min` on a non-empty list. -/
def listMin : List ℚ → ℚ
  | [] => 0
  | x :: xs => xs.foldl min x

/-- Round-half-to-even to the nearest integer, Python's `round(q)`. -/
def roundHalfEven (q : ℚ) : ℤ :=
  let f := ⌊q⌋
  let frac := q - f
  if frac < 1/2 then f
  else if 1/2 < frac then f + 1
  else if f % 2 = 0 then f else f + 1

/-- Python's `round(q, 2)`: round to two decimal places. -/
def round2 (q : ℚ) : ℚ := (roundHalfEven (q * 100) : ℚ) / 100

/-- Dot product of two vectors, truncating to the shorter length. -/
def dotQ (a b : List ℚ) : ℚ := (List.zipWith (· * ·) a b).sum

/-- `calculate_similarity_cosine`: `1 - scipy.spatial.distance.cosine`,
i.e. `⟪a,b⟫ / (‖a‖·‖b‖)`. -/
noncomputable def calculate_similarity_cosine (a b : List ℚ) : ℝ :=
  ((dotQ a b : ℚ) : ℝ) /
    (Real.sqrt ((dotQ a a : ℚ) : ℝ) * Real.sqrt ((dotQ b b : ℚ) : ℝ))

/-- Squared Euclidean distance between two vectors. -/
def distSq (a b : List ℚ) : ℚ := (List.zipWith (fun x y => (x - y) ^ 2) a b).sum

/-- `scipy.spatial.distance.euclidean`. -/
noncomputable def euclideanDistance (a b : List ℚ) : ℝ :=
  Real.sqrt ((distSq a b : ℚ) : ℝ)

/-- `calculate_similarity_euclidean`: `1 / (1 + euclidean(a, b))`. -/
noncomputable def calculate_similarity_euclidean (a b : List ℚ) : ℝ :=
  1 / (1 + euclideanDistance a b)

/-- A registered user as read from the database: `{'name': …,
'voice_embeddings': […]}`. -/
structure Profile (α : Type) where
  name : String
  voice_embeddings : List α

/-- All pairwise similarities `sim l[i] l[j]` for `i < j`, in the order
of the source's double loop. -/
def pairwiseSims {α : Type} (sim : α → α → ℚ) : List α → List ℚ
  | [] => []
  | x :: xs => xs.map (sim x) ++ pairwiseSims sim xs

/-- Result dictionary of `register_voice` (success path; the `except`
branch is unreachable in the pure model). -/
structure RegisterResult (α : Type) where
  success : Bool
  embeddings : List α
  num_samples : ℕ
  avg_inter_similarity : ℚ

/-- `register_voice`: extract an embedding per sample and compute the
average pairwise inter-sample similarity (1.0 for a single sample). -/
def register_voice {α : Type} (sim : α → α → ℚ) (extract : String → α)
    (audio_paths : List String) (_user_name : String) : RegisterResult α :=
  let embeddings := audio_paths.map extract
  let avg_similarity : ℚ :=
    if 1 < embeddings.length then mean (pairwiseSims sim embeddings) else 1
  ⟨true, embeddings, embeddings.length, avg_similarity⟩

/-- Mean similarity of the probe against all stored embeddings of one
profile (the `avg_score` of the source's per-user loop). -/
def scoreOf {α : Type} (sim : α → α → ℚ) (probe : α) (p : Profile α) : ℚ :=
  mean (p.voice_embeddings.map (sim probe))

/-- One entry of `all_scores`. -/
structure ScoreEntry where
  name : String
  avg_score : ℚ
  max_score : ℚ
  min_score : ℚ
  num_samples : ℕ
deriving DecidableEq

/-- The `all_scores` entry the per-user loop appends for one profile. -/
def entryOf {α : Type} (sim : α → α → ℚ) (probe : α) (p : Profile α) : ScoreEntry :=
  let sims := p.voice_embeddings.map (sim probe)
  ⟨p.name, mean sims, listMax sims, listMin sims, sims.length⟩

/-- The best-match loop of `identify_speaker`: starting from
`best_match = None, best_score = 0.0`, replace the pair whenever
`avg_score > best_score` (strict). -/
def bestFold {α : Type} (sim : α → α → ℚ) (probe : α)
    (users : List (Profile α)) : Option String × ℚ :=
  users.foldl
    (fun acc u => if scoreOf sim probe u > acc.2 then (some u.name, scoreOf sim probe u) else acc)
    (none, 0)

/-- Result dictionary of `identify_speaker` (the `method` key, a
constant echo of the argument, is dropped). -/
structure IdentifyResult where
  identified : Bool
  name : String
  confidence : ℚ
  all_scores : List ScoreEntry
  threshold : ℚ

/-- `identify_speaker`: 1:N identification with the four-tier
classification of the best mean score.  The two `identified = True`
branches of the source return identical dictionaries (they differ only
in logging) and are merged here. -/
def identify_speaker {α : Type} (sim : α → α → ℚ) (probe : α)
    (registered_users : List (Profile α)) (threshold : ℚ) : IdentifyResult :=
  if registered_users.isEmpty then
    ⟨false, "No users registered", 0, [], threshold * 100⟩
  else
    let all_scores := (registered_users.map (entryOf sim probe)).mergeSort
      (fun a b => b.avg_score ≤ a.avg_score)
    let best := bestFold sim probe registered_users
    let confidence := round2 (best.2 * 100)
    let thr := round2 (threshold * 100)
    if best.2 < 5/100 then
      ⟨false, "Can't hear someone speaking", confidence, all_scores, thr⟩
    else if best.2 < 30/100 then
      ⟨false, "Unknown Person Speaking", confidence, all_scores, thr⟩
    else
      -- covers both the low-confidence (score < threshold) and
      -- high-confidence (score ≥ threshold) branches of the source
      ⟨true, best.1.getD "None", confidence, all_scores, thr⟩

/-- Result dictionary of `verify_speaker`; the user-not-found branch
returns no `max_confidence` key, hence the `Option`. -/
structure VerifyResult where
  verified : Bool
  message : String
  confidence : ℚ
  max_confidence : Option ℚ

/-- `verify_speaker`: 1:1 verification of a claimed identity. -/
def verify_speaker {α : Type} (sim : α → α → ℚ) (probe : α)
    (claimed_name : String) (registered_users : List (Profile α))
    (threshold : ℚ) : VerifyResult :=
  match registered_users.find? (fun u => u.name == claimed_name) with
  | none =>
      ⟨false, "User '" ++ claimed_name ++ "' not registered", 0, none⟩
  | some claimed_user =>
      let sims := claimed_user.voice_embeddings.map (sim probe)
      let avg_score := mean sims
      let max_score := listMax sims
      let verified := decide (avg_score ≥ threshold)
      let message :=
        if verified then "Voice verified as '" ++ claimed_name ++ "'"
        else "Voice does not match '" ++ claimed_name ++ "'"
      ⟨verified, message, round2 (avg_score * 100), some (round2 (max_score * 100))⟩

/-- `calculate_optimal_threshold`: `mean - std` of the pairwise
similarities, clamped to `[0.5, 0.8]`; `0.65` below two samples. -/
noncomputable def calculate_optimal_threshold {α : Type} (sim : α → α → ℚ)
    (user_embeddings : List α) : ℝ :=
  if user_embeddings.length < 2 then 0.65
  else
    let similarities := pairwiseSims sim user_embeddings
    let mean_sim := mean similarities
    let std_sim : ℝ :=
      Real.sqrt ((mean (similarities.map (fun s => (s - mean_sim) ^ 2)) : ℚ) : ℝ)
    max 0.5 (min 0.8 ((mean_sim : ℝ) - std_sim))

/-- The state of an audio file on disk, as far as `validate_audio`
observes it: existence, byte size, and the mono waveform (with its
sample rate) that `load_audio` would produce. -/
structure AudioFile where
  file_present : Bool
  size : ℕ
  samples : List ℚ
  sr : ℕ

/-- Outcome of `validate_audio`.  The `valid` case keeps the fields the
decision logic produces exactly (`duration`, `sample_rate`,
`num_samples`); the two RMS/zero-crossing diagnostics are log-only
warnings in the source and never affect validity.  The interpolated
numbers inside the error strings are dropped, keeping the reason. -/
inductive ValidationResult where
  | valid (duration : ℚ) (sample_rate : ℕ) (num_samples : ℕ)
  | invalid (error : String) (duration : Option ℚ)
deriving DecidableEq

/-- Is the result the `valid` variant? -/
def ValidationResult.isValid : ValidationResult → Bool
  | .valid _ _ _ => true
  | .invalid _ _ => false

/-- `validate_audio`: missing file, oversize, duration out of the
inclusive `[min_duration, max_duration]` window, and absolute silence
(peak amplitude < 0.001) each yield a structured `invalid` result. -/
def validate_audio (f : AudioFile) (min_duration max_duration : ℚ) : ValidationResult :=
  if f.file_present = false then .invalid "Audio file not found" none
  else if 16 * 1024 * 1024 < f.size then .invalid "File too large" none
  else
    let duration : ℚ := (f.samples.length : ℚ) / (f.sr : ℚ)
    if duration < min_duration then .invalid "Audio too short" (some duration)
    else if max_duration < duration then .invalid "Audio too long" (some duration)
    else if listMax (f.samples.map (fun s => |s|)) < 1/1000 then
      .invalid "Audio appears to be silent or too quiet" none
    else .valid duration f.sr f.samples.length

/-- The greatest per-profile mean score (the spec's "best mean score"),
unclamped: `maxMean` of `u :: us` folds `max` over the actual means. -/
def maxMean {α : Type} (sim : α → α → ℚ) (probe : α) : List (Profile α) → ℚ
  | [] => 0
  | u :: us => us.foldl (fun b p => max b (scoreOf sim probe p)) (scoreOf sim probe u)

/- ------------------------------------------------------------------ -/
/- Theorems                                                           -/
/- ------------------------------------------------------------------ -/

/-- The second component of the best-match fold is the fold of `max`
over the per-profile means. -/
theorem foldl_best_snd {α : Type} (sim : α → α → ℚ) (probe : α) :
    ∀ (l : List (Profile α)) (acc : Option String × ℚ),
    (l.foldl
      (fun acc u => if scoreOf sim probe u > acc.2 then (some u.name, scoreOf sim probe u) else acc)
      acc).2
      = l.foldl (fun b u => max b (scoreOf sim probe u)) acc.2 := by
  intro l
  induction l with
  | nil => intro acc; rfl
  | cons u us ih =>
      intro acc
      simp only [List.foldl_cons]
      rw [ih]
      congr 1
      by_cases h : scoreOf sim probe u > acc.2
      · rw [if_pos h]
        exact (max_eq_right (le_of_lt h)).symm
      · rw [if_neg h]
        exact (max_eq_left (not_lt.mp h)).symm

/-- Folding `max` from `max a b` pulls `a` out of the fold. -/
theorem foldl_max_init {α : Type} (sim : α → α → ℚ) (probe : α) :
    ∀ (l : List (Profile α)) (a b : ℚ),
    l.foldl (fun x p => max x (scoreOf sim probe p)) (max a b)
      = max a (l.foldl (fun x p => max x (scoreOf sim probe p)) b) := by
  intro l
  induction l with
  | nil => intro a b; rfl
  | cons u us ih =>
      intro a b
      simp only [List.foldl_cons]
      rw [max_assoc, ih]

/-- The running best score of `identify_speaker` is the greatest
per-profile mean clamped below at the initial `0.0`. -/
theorem bestFold_snd {α : Type} (sim : α → α → ℚ) (probe : α)
    (users : List (Profile α)) :
    (bestFold sim probe users).2 = max 0 (maxMean sim probe users) := by
  cases users with
  | nil => simp [bestFold, maxMean]
  | cons u us =>
      show (List.foldl _ (none, 0) (u :: us)).2 = _
      rw [foldl_best_snd]
      simp only [List.foldl_cons, maxMean]
      exact foldl_max_init sim probe us 0 (scoreOf sim probe u)

/-- The initial accumulator is a lower bound of a `max` fold. -/
theorem le_foldl_max {α : Type} (sim : α → α → ℚ) (probe : α) :
    ∀ (l : List (Profile α)) (b : ℚ),
    b ≤ l.foldl (fun x p => max x (scoreOf sim probe p)) b := by
  intro l
  induction l with
  | nil => intro b; exact le_refl b
  | cons u us ih =>
      intro b
      simp only [List.foldl_cons]
      exact le_trans (le_max_left _ _) (ih _)

/-- Every member's score is a lower bound of a `max` fold over the
list. -/
theorem mem_le_foldl_max {α : Type} (sim : α → α → ℚ) (probe : α) :
    ∀ (l : List (Profile α)) (b : ℚ) (p : Profile α), p ∈ l →
    scoreOf sim probe p ≤ l.foldl (fun x q => max x (scoreOf sim probe q)) b := by
  intro l
  induction l with
  | nil => intro b p hp; cases hp
  | cons u us ih =>
      intro b p hp
      simp only [List.foldl_cons]
      rcases List.mem_cons.mp hp with rfl | hmem
      · exact le_trans (le_max_right _ _) (le_foldl_max sim probe us _)
      · exact ih _ p hmem

/-- Every profile's mean score is at most `maxMean`. -/
theorem score_le_maxMean {α : Type} (sim : α → α → ℚ) (probe : α)
    (l : List (Profile α)) (p : Profile α) (hp : p ∈ l) :
    scoreOf sim probe p ≤ maxMean sim probe l := by
  cases l with
  | nil => cases hp
  | cons u us =>
      simp only [maxMean]
      rcases List.mem_cons.mp hp with rfl | hmem
      · exact le_foldl_max sim probe us _
      · exact mem_le_foldl_max sim probe us _ p hmem

/-- A `max` fold over non-positive scores from a non-positive start
stays non-positive. -/
theorem foldl_max_nonpos {α : Type} (sim : α → α → ℚ) (probe : α) :
    ∀ (l : List (Profile α)) (b : ℚ), b ≤ 0 →
    (∀ p ∈ l, scoreOf sim probe p ≤ 0) →
    l.foldl (fun x p => max x (scoreOf sim probe p)) b ≤ 0 := by
  intro l
  induction l with
  | nil => intro b hb _; exact hb
  | cons u us ih =>
      intro b hb h
      simp only [List.foldl_cons]
      exact ih _ (max_le hb (h u (List.mem_cons_self u us)))
        (fun p hp => h p (List.mem_cons_of_mem u hp))

/-- The best-match fold either leaves the accumulator unchanged or
returns the name and score of some processed profile. -/
theorem foldl_best_cases {α : Type} (sim : α → α → ℚ) (probe : α) :
    ∀ (l : List (Profile α)) (acc : Option String × ℚ),
    (l.foldl
      (fun acc u => if scoreOf sim probe u > acc.2 then (some u.name, scoreOf sim probe u) else acc)
      acc) = acc ∨
    ∃ p ∈ l,
      (l.foldl
        (fun acc u => if scoreOf sim probe u > acc.2 then (some u.name, scoreOf sim probe u) else acc)
        acc).1 = some p.name ∧
      (l.foldl
        (fun acc u => if scoreOf sim probe u > acc.2 then (some u.name, scoreOf sim probe u) else acc)
        acc).2 = scoreOf sim probe p := by
  intro l
  induction l with
  | nil => intro acc; exact Or.inl rfl
  | cons u us ih =>
      intro acc
      simp only [List.foldl_cons]
      rcases ih (if scoreOf sim probe u > acc.2 then (some u.name, scoreOf sim probe u) else acc)
        with h | ⟨p, hp, h1, h2⟩
      · by_cases hc : scoreOf sim probe u > acc.2
        · refine Or.inr ⟨u, List.mem_cons_self u us, ?_, ?_⟩
          · rw [h, if_pos hc]
          · rw [h, if_pos hc]
        · refine Or.inl ?_
          rw [h, if_neg hc]
      · exact Or.inr ⟨p, List.mem_cons_of_mem u hp, h1, h2⟩

/-- If every remaining score is at most the running best, the fold is a
no-op. -/
theorem foldl_best_skip {α : Type} (sim : α → α → ℚ) (probe : α) :
    ∀ (l : List (Profile α)) (nm : Option String) (c : ℚ),
    (∀ p ∈ l, scoreOf sim probe p ≤ c) →
    l.foldl
      (fun acc u => if scoreOf sim probe u > acc.2 then (some u.name, scoreOf sim probe u) else acc)
      (nm, c) = (nm, c) := by
  intro l
  induction l with
  | nil => intro nm c _; rfl
  | cons u us ih =>
      intro nm c h
      simp only [List.foldl_cons]
      rw [if_neg (not_lt.mpr (h u (List.mem_cons_self u us)))]
      exact ih nm c (fun p hp => h p (List.mem_cons_of_mem u hp))

/-- `maxMean` over `u :: us` with non-empty `us` is the binary `max` of
the head's score and the tail's `maxMean`. -/
theorem maxMean_cons {α : Type} (sim : α → α → ℚ) (probe : α)
    (u : Profile α) (us : List (Profile α)) (hus : us ≠ []) :
    maxMean sim probe (u :: us)
      = max (scoreOf sim probe u) (maxMean sim probe us) := by
  cases us with
  | nil => exact absurd rfl hus
  | cons v vs =>
      simp only [maxMean, List.foldl_cons]
      exact foldl_max_init sim probe vs (scoreOf sim probe u) (scoreOf sim probe v)

/-- When the true greatest mean exceeds the running best, the fold ends
on the first profile attaining the greatest mean (strict `>`,
first-encountered wins). -/
theorem foldl_first_wins {α : Type} (sim : α → α → ℚ) (probe : α) :
    ∀ (l : List (Profile α)), l ≠ [] → ∀ (nm : Option String) (b : ℚ),
    b < maxMean sim probe l →
    ∃ p, l.find? (fun u => decide (maxMean sim probe l ≤ scoreOf sim probe u)) = some p ∧
      (l.foldl
        (fun acc u => if scoreOf sim probe u > acc.2 then (some u.name, scoreOf sim probe u) else acc)
        (nm, b)).1 = some p.name ∧
      scoreOf sim probe p = maxMean sim probe l := by
  intro l
  induction l with
  | nil => intro h; exact absurd rfl h
  | cons u us ih =>
      intro _ nm b hb
      by_cases hus : us = []
      · subst hus
        have hM : maxMean sim probe [u] = scoreOf sim probe u := rfl
        rw [hM] at hb ⊢
        refine ⟨u, ?_, ?_, rfl⟩
        · simp [List.find?]
        · simp only [List.foldl_cons, List.foldl_nil]
          rw [if_pos hb]
      · have hM := maxMean_cons sim probe u us hus
        rcases le_or_lt (maxMean sim probe us) (scoreOf sim probe u) with hle | hlt
        · have hMu : maxMean sim probe (u :: us) = scoreOf sim probe u := by
            rw [hM, max_eq_left hle]
          have hb' : b < scoreOf sim probe u := hMu ▸ hb
          refine ⟨u, ?_, ?_, hMu.symm⟩
          · rw [hMu]
            simp [List.find?]
          · simp only [List.foldl_cons]
            rw [if_pos hb']
            rw [foldl_best_skip sim probe us (some u.name) (scoreOf sim probe u)
              (fun p hp => le_trans (score_le_maxMean sim probe us p hp) hle)]
        · have hMu : maxMean sim probe (u :: us) = maxMean sim probe us := by
            rw [hM, max_eq_right (le_of_lt hlt)]
          have hhead : ¬ (maxMean sim probe (u :: us) ≤ scoreOf sim probe u) := by
            rw [hMu]; exact not_le.mpr hlt
          by_cases hc : scoreOf sim probe u > b
          · rcases ih hus (some u.name) (scoreOf sim probe u) hlt with ⟨p, hfind, hfold, hscore⟩
            refine ⟨p, ?_, ?_, by rw [hMu]; exact hscore⟩
            · rw [List.find?_cons_of_neg _ (by simpa using hhead), hMu]
              exact hfind
            · simp only [List.foldl_cons]
              rw [if_pos hc]
              exact hfold
          · have hb2 : b < maxMean sim probe us := hMu ▸ hb
            rcases ih hus nm b hb2 with ⟨p, hfind, hfold, hscore⟩
            refine ⟨p, ?_, ?_, by rw [hMu]; exact hscore⟩
            · rw [List.find?_cons_of_neg _ (by simpa using hhead), hMu]
              exact hfind
            · simp only [List.foldl_cons]
              rw [if_neg hc]
              exact hfold

/-- The self dot product of `x :: xs`. -/
theorem dotQ_self_cons (x : ℚ) (xs : List ℚ) :
    dotQ (x :: xs) (x :: xs) = x * x + dotQ xs xs := by
  simp [dotQ]

/-- A self dot product is non-negative. -/
theorem dotQ_self_nonneg (v : List ℚ) : 0 ≤ dotQ v v := by
  induction v with
  | nil => simp [dotQ]
  | cons x xs ih =>
      rw [dotQ_self_cons]
      nlinarith [mul_self_nonneg x]

/-- A self dot product is positive as soon as one entry is non-zero. -/
theorem dotQ_self_pos (v : List ℚ) (h : ∃ x ∈ v, x ≠ 0) : 0 < dotQ v v := by
  induction v with
  | nil => simp at h
  | cons x xs ih =>
      rw [dotQ_self_cons]
      rcases h with ⟨y, hy, hy0⟩
      rcases List.mem_cons.mp hy with rfl | hmem
      · nlinarith [dotQ_self_nonneg xs, mul_self_nonneg y, sq_abs y,
          abs_pos.mpr hy0]
      · have := ih ⟨y, hmem, hy0⟩
        nlinarith [mul_self_nonneg x]

/-- C3: `identify_speaker` on an empty profile list. -/
theorem identify_speaker_empty_profiles {α : Type} (sim : α → α → ℚ)
    (probe : α) (threshold : ℚ) :
    identify_speaker sim probe [] threshold =
      ⟨false, "No users registered", 0, [], threshold * 100⟩ := rfl

/-- C6: registering exactly one voice sample always reports an
inter-sample similarity of `1`. -/
theorem register_voice_single_sample {α : Type} (sim : α → α → ℚ)
    (extract : String → α) (path : String) (user_name : String) :
    (register_voice sim extract [path] user_name).avg_inter_similarity = 1 := rfl

/-- C8: the cosine similarity of a non-zero vector with itself is 1. -/
theorem cosine_similarity_self (v : List ℚ) (h : ∃ x ∈ v, x ≠ 0) :
    calculate_similarity_cosine v v = 1 := by
  have hq : 0 < dotQ v v := dotQ_self_pos v h
  have hr : (0 : ℝ) < ((dotQ v v : ℚ) : ℝ) := by exact_mod_cast hq
  unfold calculate_similarity_cosine
  rw [Real.mul_self_sqrt hr.le, div_self hr.ne']

/-- Witness for C8 at the concrete vector `[1]`. -/
theorem cosine_similarity_self_witness :
    (∃ x ∈ [(1 : ℚ)], x ≠ 0) ∧ calculate_similarity_cosine [1] [1] = 1 :=
  ⟨⟨1, by simp⟩, cosine_similarity_self [1] ⟨1, by simp⟩⟩

/-- C9: the Euclidean similarity always lies in `(0, 1]` and equals 1
exactly when the Euclidean distance is 0. -/
theorem euclidean_similarity_range (a b : List ℚ) :
    0 < calculate_similarity_euclidean a b ∧
    calculate_similarity_euclidean a b ≤ 1 ∧
    (calculate_similarity_euclidean a b = 1 ↔ euclideanDistance a b = 0) := by
  have hd : 0 ≤ euclideanDistance a b := Real.sqrt_nonneg _
  have h1 : (0 : ℝ) < 1 + euclideanDistance a b := by linarith
  unfold calculate_similarity_euclidean
  refine ⟨by positivity, ?_, ?_⟩
  · rw [div_le_one h1]
    linarith
  · rw [div_eq_one_iff_eq h1.ne']
    constructor
    · intro h
      linarith
    · intro h
      rw [h, add_zero]

/-- C5: `calculate_optimal_threshold` is always within `[0.5, 0.8]`; it
is the fixed default `0.65` below two samples and otherwise the clamped
`mean - std` of the pairwise similarities. -/
theorem calculate_optimal_threshold_spec {α : Type} (sim : α → α → ℚ)
    (l : List α) :
    1/2 ≤ calculate_optimal_threshold sim l ∧
    calculate_optimal_threshold sim l ≤ 4/5 ∧
    calculate_optimal_threshold sim l =
      (if l.length < 2 then (13/20 : ℝ)
       else max (1/2) (min (4/5)
         ((mean (pairwiseSims sim l) : ℝ) -
           Real.sqrt ((mean ((pairwiseSims sim l).map
             (fun s => (s - mean (pairwiseSims sim l)) ^ 2)) : ℚ) : ℝ)))) := by
  by_cases hl : l.length < 2
  · simp only [calculate_optimal_threshold, if_pos hl]
    norm_num
  · simp only [calculate_optimal_threshold, if_neg hl]
    have e05 : (0.5 : ℝ) = 1/2 := by norm_num
    have e08 : (0.8 : ℝ) = 4/5 := by norm_num
    rw [e05, e08]
    refine ⟨le_max_left _ _, max_le (by norm_num) ?_, rfl⟩
    exact le_trans (min_le_left _ _) (by norm_num)

/-- C7: for an existing, non-oversized, non-silent file, the duration
bounds are inclusive: a duration equal to either bound validates, a
duration strictly outside either bound yields a structured `invalid`
result with a reason. -/
theorem validate_audio_duration_bounds (f : AudioFile)
    (min_duration max_duration : ℚ)
    (h1 : f.file_present = true)
    (h2 : f.size ≤ 16 * 1024 * 1024)
    (h3 : 1/1000 ≤ listMax (f.samples.map (fun s => |s|)))
    (h4 : min_duration ≤ max_duration) :
    ((f.samples.length : ℚ) / (f.sr : ℚ) = min_duration →
      (validate_audio f min_duration max_duration).isValid = true) ∧
    ((f.samples.length : ℚ) / (f.sr : ℚ) = max_duration →
      (validate_audio f min_duration max_duration).isValid = true) ∧
    ((f.samples.length : ℚ) / (f.sr : ℚ) < min_duration →
      validate_audio f min_duration max_duration =
        .invalid "Audio too short" (some ((f.samples.length : ℚ) / (f.sr : ℚ)))) ∧
    (max_duration < (f.samples.length : ℚ) / (f.sr : ℚ) →
      validate_audio f min_duration max_duration =
        .invalid "Audio too long" (some ((f.samples.length : ℚ) / (f.sr : ℚ)))) := by
  have hsz : ¬ (16 * 1024 * 1024 < f.size) := not_lt.mpr h2
  have hsil : ¬ (listMax (f.samples.map (fun s => |s|)) < 1/1000) := not_lt.mpr h3
  simp only [validate_audio, h1, Bool.true_eq_false, if_false, hsz, if_neg hsz]
  refine ⟨?_, ?_, ?_, ?_⟩
  · intro h
    rw [if_neg (by rw [h]; exact lt_irrefl _), if_neg (by rw [h]; exact not_lt.mpr h4),
      if_neg hsil]
    rfl
  · intro h
    rw [if_neg (by rw [h]; exact not_lt.mpr h4), if_neg (by rw [h]; exact lt_irrefl _),
      if_neg hsil]
    rfl
  · intro h
    rw [if_pos h]
  · intro h
    rw [if_neg (not_lt.mpr (le_of_lt (lt_of_le_of_lt h4 h))), if_pos h]

/-- C1: `identify_speaker` classifies the greatest per-profile mean
score `s` by the ordered cut points `0.05`, `0.30`, `threshold`:
below `0.05` the no-voice sentinel, in `[0.05, 0.30)` the
unknown-speaker sentinel, in `[0.30, threshold)` identified with the
best match's name (the low-confidence tier), and at `≥ threshold`
identified with the best match's name and `s * 100` rounded to two
decimals as confidence. -/
theorem identify_speaker_tiers {α : Type} (sim : α → α → ℚ) (probe : α)
    (users : List (Profile α)) (threshold : ℚ)
    (h1 : users ≠ [])
    (h2 : ∀ p ∈ users, p.voice_embeddings ≠ []) :
    (maxMean sim probe users < 5/100 →
      (identify_speaker sim probe users threshold).identified = false ∧
      (identify_speaker sim probe users threshold).name = "Can't hear someone speaking") ∧
    (5/100 ≤ maxMean sim probe users → maxMean sim probe users < 30/100 →
      (identify_speaker sim probe users threshold).identified = false ∧
      (identify_speaker sim probe users threshold).name = "Unknown Person Speaking") ∧
    (30/100 ≤ maxMean sim probe users → maxMean sim probe users < threshold →
      (identify_speaker sim probe users threshold).identified = true ∧
      ∃ p ∈ users, (identify_speaker sim probe users threshold).name = p.name ∧
        scoreOf sim probe p = maxMean sim probe users) ∧
    (30/100 ≤ maxMean sim probe users → threshold ≤ maxMean sim probe users →
      (identify_speaker sim probe users threshold).identified = true ∧
      (∃ p ∈ users, (identify_speaker sim probe users threshold).name = p.name ∧
        scoreOf sim probe p = maxMean sim probe users) ∧
      (identify_speaker sim probe users threshold).confidence =
        round2 (maxMean sim probe users * 100)) := by
  cases users with
  | nil => exact absurd rfl h1
  | cons u us =>
      clear h1 h2
      have hbs := bestFold_snd sim probe (u :: us)
      refine ⟨?_, ?_, ?_, ?_⟩
      · intro h
        have hlt : (bestFold sim probe (u :: us)).2 < 5/100 := by
          rw [hbs]
          exact max_lt (by norm_num) h
        simp only [identify_speaker, List.isEmpty_cons, Bool.false_eq_true, if_false]
        rw [if_pos hlt]
        exact ⟨rfl, rfl⟩
      · intro h05 h30
        have hs0 : max 0 (maxMean sim probe (u :: us)) = maxMean sim probe (u :: us) :=
          max_eq_right (le_trans (by norm_num) h05)
        have hn5 : ¬ ((bestFold sim probe (u :: us)).2 < 5/100) := by
          rw [hbs, hs0]
          exact not_lt.mpr h05
        have h30' : (bestFold sim probe (u :: us)).2 < 30/100 := by
          rw [hbs, hs0]
          exact h30
        simp only [identify_speaker, List.isEmpty_cons, Bool.false_eq_true, if_false]
        rw [if_neg hn5, if_pos h30']
        exact ⟨rfl, rfl⟩
      · intro h30 hth
        have hs0 : max 0 (maxMean sim probe (u :: us)) = maxMean sim probe (u :: us) :=
          max_eq_right (le_trans (by norm_num) h30)
        have hn5 : ¬ ((bestFold sim probe (u :: us)).2 < 5/100) := by
          rw [hbs, hs0]
          exact not_lt.mpr (le_trans (by norm_num) h30)
        have hn30 : ¬ ((bestFold sim probe (u :: us)).2 < 30/100) := by
          rw [hbs, hs0]
          exact not_lt.mpr h30
        have hbf : bestFold sim probe (u :: us) =
            (u :: us).foldl
              (fun acc q => if scoreOf sim probe q > acc.2 then (some q.name, scoreOf sim probe q) else acc)
              (none, 0) := rfl
        rcases foldl_best_cases sim probe (u :: us) (none, 0) with hcase | ⟨p, hp, hp1, hp2⟩
        · exfalso
          have hz : (bestFold sim probe (u :: us)).2 = 0 := by
            rw [hbf, hcase]
          rw [hbs, hs0] at hz
          rw [hz] at h30
          norm_num at h30
        · have hname : (bestFold sim probe (u :: us)).1 = some p.name := by
            rw [hbf]; exact hp1
          have hscoreEq : scoreOf sim probe p = maxMean sim probe (u :: us) := by
            have : (bestFold sim probe (u :: us)).2 = scoreOf sim probe p := by
              rw [hbf]; exact hp2
            rw [hbs, hs0] at this
            exact this.symm
          simp only [identify_speaker, List.isEmpty_cons, Bool.false_eq_true, if_false]
          rw [if_neg hn5, if_neg hn30]
          refine ⟨rfl, p, hp, ?_, hscoreEq⟩
          show (bestFold sim probe (u :: us)).1.getD "None" = p.name
          rw [hname]
          rfl
      · intro h30 hth
        have hs0 : max 0 (maxMean sim probe (u :: us)) = maxMean sim probe (u :: us) :=
          max_eq_right (le_trans (by norm_num) h30)
        have hn5 : ¬ ((bestFold sim probe (u :: us)).2 < 5/100) := by
          rw [hbs, hs0]
          exact not_lt.mpr (le_trans (by norm_num) h30)
        have hn30 : ¬ ((bestFold sim probe (u :: us)).2 < 30/100) := by
          rw [hbs, hs0]
          exact not_lt.mpr h30
        have hbf : bestFold sim probe (u :: us) =
            (u :: us).foldl
              (fun acc q => if scoreOf sim probe q > acc.2 then (some q.name, scoreOf sim probe q) else acc)
              (none, 0) := rfl
        have hsnd : (bestFold sim probe (u :: us)).2 = maxMean sim probe (u :: us) := by
          rw [hbs, hs0]
        rcases foldl_best_cases sim probe (u :: us) (none, 0) with hcase | ⟨p, hp, hp1, hp2⟩
        · exfalso
          have hz : (bestFold sim probe (u :: us)).2 = 0 := by
            rw [hbf, hcase]
          rw [hsnd] at hz
          rw [hz] at h30
          norm_num at h30
        · have hname : (bestFold sim probe (u :: us)).1 = some p.name := by
            rw [hbf]; exact hp1
          have hscoreEq : scoreOf sim probe p = maxMean sim probe (u :: us) := by
            have : (bestFold sim probe (u :: us)).2 = scoreOf sim probe p := by
              rw [hbf]; exact hp2
            rw [hsnd] at this
            exact this.symm
          simp only [identify_speaker, List.isEmpty_cons, Bool.false_eq_true, if_false]
          rw [if_neg hn5, if_neg hn30]
          refine ⟨rfl, ⟨p, hp, ?_, hscoreEq⟩, ?_⟩
          · show (bestFold sim probe (u :: us)).1.getD "None" = p.name
            rw [hname]; rfl
          · show round2 ((bestFold sim probe (u :: us)).2 * 100) = _
            rw [hsnd]

/-- Witness for C1 at a single enrolled profile with mean score `9/20`
against threshold `13/20` (the low-confidence tier). -/
theorem identify_speaker_tiers_witness :
    ([(⟨"alice", [()]⟩ : Profile Unit)] ≠ []) ∧
    (∀ p ∈ [(⟨"alice", [()]⟩ : Profile Unit)], p.voice_embeddings ≠ []) ∧
    (30/100 ≤ maxMean (fun _ _ => (9 : ℚ)/20) () [⟨"alice", [()]⟩]) ∧
    (maxMean (fun _ _ => (9 : ℚ)/20) () [⟨"alice", [()]⟩] < 13/20) ∧
    ((identify_speaker (fun _ _ => (9 : ℚ)/20) () [⟨"alice", [()]⟩] (13/20)).identified = true ∧
      ∃ p ∈ [(⟨"alice", [()]⟩ : Profile Unit)],
        (identify_speaker (fun _ _ => (9 : ℚ)/20) () [⟨"alice", [()]⟩] (13/20)).name = p.name ∧
        scoreOf (fun _ _ => (9 : ℚ)/20) () p =
          maxMean (fun _ _ => (9 : ℚ)/20) () [⟨"alice", [()]⟩]) :=
  ⟨by simp, by simp, by norm_num [maxMean, scoreOf, mean], by norm_num [maxMean, scoreOf, mean],
    (identify_speaker_tiers (fun _ _ => (9 : ℚ)/20) () [⟨"alice", [()]⟩] (13/20)
        (by simp) (by simp)).2.2.1
      (by norm_num [maxMean, scoreOf, mean]) (by norm_num [maxMean, scoreOf, mean])⟩

/-- C10: when every profile's mean score is non-positive, the running
best score stays at its initial `0.0`, so the probe is classified as
"no voice": not identified, the no-voice sentinel, confidence `0` (the
actual negative best mean is not reported). -/
theorem identify_speaker_all_nonpositive {α : Type} (sim : α → α → ℚ)
    (probe : α) (users : List (Profile α)) (threshold : ℚ)
    (h1 : users ≠ [])
    (h2 : ∀ p ∈ users, p.voice_embeddings ≠ [])
    (h3 : ∀ p ∈ users, scoreOf sim probe p ≤ 0) :
    (identify_speaker sim probe users threshold).identified = false ∧
    (identify_speaker sim probe users threshold).name = "Can't hear someone speaking" ∧
    (identify_speaker sim probe users threshold).confidence = 0 := by
  cases users with
  | nil => exact absurd rfl h1
  | cons u us =>
      have hM : maxMean sim probe (u :: us) ≤ 0 := by
        simp only [maxMean]
        exact foldl_max_nonpos sim probe us (scoreOf sim probe u)
          (h3 u (List.mem_cons_self u us)) (fun p hp => h3 p (List.mem_cons_of_mem u hp))
      have hz : (bestFold sim probe (u :: us)).2 = 0 := by
        rw [bestFold_snd, max_eq_left hM]
      have hlt : (bestFold sim probe (u :: us)).2 < 5/100 := by
        rw [hz]
        norm_num
      simp only [identify_speaker, List.isEmpty_cons, Bool.false_eq_true, if_false]
      rw [if_pos hlt]
      refine ⟨rfl, rfl, ?_⟩
      show round2 ((bestFold sim probe (u :: us)).2 * 100) = 0
      rw [hz]
      norm_num [round2, roundHalfEven]

/-- Witness for C10 at a single profile with (cosine-style negative)
mean score `-1/2`. -/
theorem identify_speaker_all_nonpositive_witness :
    ([(⟨"bob", [()]⟩ : Profile Unit)] ≠ []) ∧
    (∀ p ∈ [(⟨"bob", [()]⟩ : Profile Unit)], p.voice_embeddings ≠ []) ∧
    (∀ p ∈ [(⟨"bob", [()]⟩ : Profile Unit)], scoreOf (fun _ _ => -(1 : ℚ)/2) () p ≤ 0) ∧
    ((identify_speaker (fun _ _ => -(1 : ℚ)/2) () [⟨"bob", [()]⟩] (13/20)).identified = false ∧
      (identify_speaker (fun _ _ => -(1 : ℚ)/2) () [⟨"bob", [()]⟩] (13/20)).name =
        "Can't hear someone speaking" ∧
      (identify_speaker (fun _ _ => -(1 : ℚ)/2) () [⟨"bob", [()]⟩] (13/20)).confidence = 0) :=
  ⟨by simp, by simp,
    by
      intro p hp
      simp only [List.mem_singleton] at hp
      subst hp
      norm_num [scoreOf, mean],
    identify_speaker_all_nonpositive (fun _ _ => -(1 : ℚ)/2) () [⟨"bob", [()]⟩] (13/20)
      (by simp) (by simp)
      (by
        intro p hp
        simp only [List.mem_singleton] at hp
        subst hp
        norm_num [scoreOf, mean])⟩

/-- Counterexample to C2 as stated: with a single profile of mean
score `-1/2` (possible under the cosine method), the greatest-mean
profile exists but `identify_speaker` selects no best match at all —
the strict `>` against the `0.0` start skips every non-positive mean. -/
theorem bestFold_nonpositive_counterexample :
    scoreOf (fun (_ _ : Unit) => -(1 : ℚ)/2) () ⟨"alice", [()]⟩ =
      maxMean (fun (_ _ : Unit) => -(1 : ℚ)/2) () [⟨"alice", [()]⟩] ∧
    (bestFold (fun (_ _ : Unit) => -(1 : ℚ)/2) () [⟨"alice", [()]⟩]).1 = none ∧
    (identify_speaker (fun (_ _ : Unit) => -(1 : ℚ)/2) () [⟨"alice", [()]⟩] (13/20)).name =
      "Can't hear someone speaking" := by
  have hbf : bestFold (fun (_ _ : Unit) => -(1 : ℚ)/2) () [⟨"alice", [()]⟩] = (none, 0) := by
    show List.foldl _ (none, 0) _ = (none, 0)
    simp only [List.foldl_cons, List.foldl_nil]
    rw [if_neg (by norm_num [scoreOf, mean])]
  refine ⟨rfl, ?_, ?_⟩
  · rw [hbf]
  · simp only [identify_speaker, List.isEmpty_cons, Bool.false_eq_true, if_false]
    rw [hbf, if_pos (by norm_num : ((none : Option String), (0 : ℚ)).2 < 5/100)]

/-- C2 (amended): provided some profile has a strictly positive mean
score, the best-match loop of `identify_speaker` selects the
first-encountered profile attaining the greatest mean score (strict
`>` comparison, first one wins ties). -/
theorem identify_best_first_wins {α : Type} (sim : α → α → ℚ) (probe : α)
    (users : List (Profile α))
    (h1 : users ≠ [])
    (_h2 : ∀ p ∈ users, p.voice_embeddings ≠ [])
    (hpos : 0 < maxMean sim probe users) :
    ∃ p, users.find?
        (fun u => decide (maxMean sim probe users ≤ scoreOf sim probe u)) = some p ∧
      (bestFold sim probe users).1 = some p.name ∧
      scoreOf sim probe p = maxMean sim probe users :=
  foldl_first_wins sim probe users h1 none 0 hpos

/-- Witness for the amended C2 at a single profile of positive mean
score `1/4`. -/
theorem identify_best_first_wins_witness :
    ([(⟨"dora", [(1 : ℚ)]⟩ : Profile ℚ)] ≠ []) ∧
    (∀ p ∈ [(⟨"dora", [(1 : ℚ)]⟩ : Profile ℚ)], p.voice_embeddings ≠ []) ∧
    (0 < maxMean (fun _ y => y/4) (0 : ℚ) [⟨"dora", [(1 : ℚ)]⟩]) ∧
    (∃ p, [(⟨"dora", [(1 : ℚ)]⟩ : Profile ℚ)].find?
        (fun u => decide (maxMean (fun _ y => y/4) (0 : ℚ) [⟨"dora", [(1 : ℚ)]⟩] ≤
          scoreOf (fun _ y => y/4) (0 : ℚ) u)) = some p ∧
      (bestFold (fun _ y => y/4) (0 : ℚ) [⟨"dora", [(1 : ℚ)]⟩]).1 = some p.name ∧
      scoreOf (fun _ y => y/4) (0 : ℚ) p =
        maxMean (fun _ y => y/4) (0 : ℚ) [⟨"dora", [(1 : ℚ)]⟩]) :=
  ⟨by simp, by simp, by norm_num [maxMean, scoreOf, mean],
    identify_best_first_wins (fun _ y => y/4) (0 : ℚ) [⟨"dora", [(1 : ℚ)]⟩]
      (by simp) (by simp) (by norm_num [maxMean, scoreOf, mean])⟩

/-- C4: `verify_speaker` verifies exactly when the claimed name is
found and the mean similarity against that profile's stored signatures
reaches the threshold; an absent name yields `verified = false` with
the "not registered" message and confidence `0`. -/
theorem verify_speaker_spec {α : Type} (sim : α → α → ℚ) (probe : α)
    (claimed_name : String) (users : List (Profile α)) (threshold : ℚ)
    (_h2 : ∀ p ∈ users, p.voice_embeddings ≠ []) :
    ((verify_speaker sim probe claimed_name users threshold).verified = true ↔
      ∃ u, users.find? (fun p => p.name == claimed_name) = some u ∧
        threshold ≤ mean (u.voice_embeddings.map (sim probe))) ∧
    (users.find? (fun p => p.name == claimed_name) = none →
      verify_speaker sim probe claimed_name users threshold =
        ⟨false, "User '" ++ claimed_name ++ "' not registered", 0, none⟩) := by
  cases hf : users.find? (fun u => u.name == claimed_name) with
  | none =>
      constructor
      · simp [verify_speaker, hf]
      · intro _
        simp [verify_speaker, hf]
  | some u =>
      constructor
      · simp [verify_speaker, hf, ge_iff_le]
      · intro h
        cases h

/-- Witness for C4 at a present claimed name with mean score `7/10`
against threshold `13/20`. -/
theorem verify_speaker_spec_witness :
    (∀ p ∈ [(⟨"carol", [()]⟩ : Profile Unit)], p.voice_embeddings ≠ []) ∧
    (((verify_speaker (fun _ _ => (7 : ℚ)/10) () "carol" [⟨"carol", [()]⟩] (13/20)).verified = true ↔
      ∃ u, [(⟨"carol", [()]⟩ : Profile Unit)].find? (fun p => p.name == "carol") = some u ∧
        (13 : ℚ)/20 ≤ mean (u.voice_embeddings.map (fun _ => (7 : ℚ)/10))) ∧
    ([(⟨"carol", [()]⟩ : Profile Unit)].find? (fun p => p.name == "carol") = none →
      verify_speaker (fun _ _ => (7 : ℚ)/10) () "carol" [⟨"carol", [()]⟩] (13/20) =
        ⟨false, "User '" ++ "carol" ++ "' not registered", 0, none⟩)) :=
  ⟨by simp,
    verify_speaker_spec (fun _ _ => (7 : ℚ)/10) () "carol" [⟨"carol", [()]⟩] (13/20) (by simp)⟩

/-- Witness for C7 at a concrete file of duration exactly
`min_duration = 2`. -/
theorem validate_audio_duration_bounds_witness :
    (AudioFile.mk true 0 [1/2, 1/2] 1).file_present = true ∧
    (AudioFile.mk true 0 [1/2, 1/2] 1).size ≤ 16 * 1024 * 1024 ∧
    1/1000 ≤ listMax (((AudioFile.mk true 0 [1/2, 1/2] 1).samples).map (fun s => |s|)) ∧
    (2 : ℚ) ≤ 30 ∧
    (((AudioFile.mk true 0 [1/2, 1/2] 1).samples.length : ℚ) /
        ((AudioFile.mk true 0 [1/2, 1/2] 1).sr : ℚ) = 2 →
      (validate_audio (AudioFile.mk true 0 [1/2, 1/2] 1) 2 30).isValid = true) :=
  ⟨rfl, by norm_num, by norm_num [listMax, abs_of_nonneg], by norm_num,
    (validate_audio_duration_bounds (AudioFile.mk true 0 [1/2, 1/2] 1) 2 30
      rfl (by norm_num) (by norm_num [listMax, abs_of_nonneg]) (by norm_num)).1⟩
